import Mathlib

/-!
Verification of the terminal repository core against its specification.

Shallow embedding of:
- byte forwarding (`Term::forward_inputs` / `Term::gather_outputs`,
  crates/terminal-common/src/lib.rs),
- event dispatch and the poll loop (`process_event` / `main`,
  crates/terminal/src/main.rs; the near-identical inline loop in src/main.rs
  is noted where it differs),
- the raw-mode stdin guard (`StdinRaw::new` / `Drop`, src/stdfiles.rs and
  the identical copy in crates/terminal-echo/src/lib.rs),
- the PTY lifecycle (`Pty::new`, `Drop for Pty`, `Write for Pty`,
  crates/terminal-tty/src/pty.rs).

OS file descriptors are modelled by explicit state: a channel carries the
sequence of outcomes that successive non-blocking `read` calls on it will
produce, plus the bytes written to it so far.  Write calls (`write_all`) are
modelled as always succeeding; the claims under verification are about the
read/forward/dispatch paths.
-/

/-- Linux signal number SIGHUP. -/
def sigHUP : Nat := 1

/-- Linux signal number SIGINT. -/
def sigINT : Nat := 2

/-- Linux signal number SIGQUIT. -/
def sigQUIT : Nat := 3

/-- Linux signal number SIGUSR1 (the designated quit signal of this program). -/
def sigUSR1 : Nat := 10

/-- Linux signal number SIGALRM. -/
def sigALRM : Nat := 14

/-- Linux signal number SIGTERM. -/
def sigTERM : Nat := 15

/-- Linux signal number SIGCHLD. -/
def sigCHLD : Nat := 17

/-- Linux signal number SIGWINCH. -/
def sigWINCH : Nat := 28

/-- Kind of an `std::io::Error`, restricted to the kinds the code inspects
(`ErrorKind::WouldBlock`, `ErrorKind::Interrupted`, anything else). -/
inductive ErrKind where
  | wouldBlock
  | interrupted
  | other
  deriving DecidableEq, Repr

/-- Model of `std::io::Error`: its kind plus `raw_os_error()`. -/
structure IoErr where
  kind : ErrKind
  rawOsError : Option Nat
  deriving DecidableEq, Repr

/-- Outcome of one `read` syscall on a non-blocking descriptor: either data
(`Ok(size)` with the bytes placed in the buffer) or a failure. -/
inductive ReadOutcome where
  | chunk : List Nat → ReadOutcome
  | fail : IoErr → ReadOutcome
  deriving DecidableEq, Repr

/-- A bidirectional endpoint (the pty master, or host stdin/stdout): the
outcomes its pending `read` calls will produce, and the bytes written to it. -/
structure Chan where
  toRead : List ReadOutcome
  written : List Nat
  deriving DecidableEq, Repr

/-- Models `self.read(&mut buf)` with `buf : [u8; 256]`: the OS places at most
256 bytes in the buffer.  An exhausted outcome list models EOF (`Ok(0)`). -/
def readChunk (c : Chan) : ReadOutcome × Chan :=
  match c.toRead with
  | [] => (.chunk [], c)
  | .chunk bs :: rest => (.chunk (bs.take 256), { c with toRead := rest })
  | .fail e :: rest => (.fail e, { c with toRead := rest })

/-- Models `other.write_all(data)` (modelled as always succeeding). -/
def writeAll (c : Chan) (bs : List Nat) : Chan :=
  { c with written := c.written ++ bs }

/-- Model of `Term::gather_outputs` (crates/terminal-common/src/lib.rs):
read up to 256 bytes from `other`, write them all to `self`, return the size;
a `WouldBlock` read error is absorbed as `Ok(0)`; other read errors propagate.
Returns (result, self after, other after). -/
def gather_outputs (self other : Chan) : Except IoErr Nat × Chan × Chan :=
  match readChunk other with
  | (.chunk bs, other') => (.ok bs.length, writeAll self bs, other')
  | (.fail e, other') =>
    if e.kind = .wouldBlock then (.ok 0, self, other')
    else (.error e, self, other')

/-- Model of `Term::forward_inputs` (crates/terminal-common/src/lib.rs):
read up to 256 bytes from `self`, write them all to `other`; any read error
(including `WouldBlock`) propagates via `?`.
Returns (result, self after, other after). -/
def forward_inputs (self other : Chan) : Except IoErr Unit × Chan × Chan :=
  match readChunk self with
  | (.chunk bs, self') => (.ok (), self', writeAll other bs)
  | (.fail e, self') => (.error e, self', other)

/-- Model of `libc::winsize`: four u16 fields. -/
structure WinSize where
  ws_row : Nat
  ws_col : Nat
  ws_xpixel : Nat
  ws_ypixel : Nat
  deriving DecidableEq, Repr

/-- Model of `ProcessEventError` (crates/terminal/src/main.rs). -/
inductive ProcessEventError where
  | ProcessDied
  | IoError : IoErr → ProcessEventError
  | SigBreak
  deriving DecidableEq, Repr

/-- Model of the `Token(2)` drain loop (`for signal in signals.pending()`):
each pending signal in order; `SIGUSR1` returns `Err(SigBreak)?`, which stops
the drain at once (later pending signals stay pending, the iterator is
dropped); `SIGWINCH` performs `get_size` on host output (yielding `host`)
followed by `set_size` on the pty master; other signals are ignored.
Returns (pty size after, error, signals left pending). -/
def drainSignals (host : WinSize) : List Nat → WinSize →
    WinSize × Option ProcessEventError × List Nat
  | [], sz => (sz, none, [])
  | s :: rest, sz =>
    if s = sigUSR1 then (sz, some .SigBreak, rest)
    else if s = sigWINCH then drainSignals host rest host
    else drainSignals host rest sz

/-- Observable state of the running session: the host side endpoint
(`Echo`: reads stdin, writes stdout), the pty master endpoint, the pending
signal queue, and the current host/pty geometries. -/
structure SysState where
  echo : Chan
  pty : Chan
  pendingSignals : List Nat
  hostSize : WinSize
  ptySize : WinSize
  deriving DecidableEq, Repr

/-- Model of `process_event` (crates/terminal/src/main.rs): dispatch of one
mio event by token.  Token 0: `echo.gather_outputs(pty)`, an error with
`raw_os_error() == Some(5)` becomes `ProcessDied`, any other error becomes
`IoError`.  Token 1: `echo.forward_inputs(pty)`, same error classification.
Token 2: drain pending signals.  Other tokens: `Ok(())`.  Side effects that
happened before an error are kept (they happened on the real descriptors). -/
def processEvent (tok : Nat) (st : SysState) : SysState × Option ProcessEventError :=
  match tok with
  | 0 =>
    match gather_outputs st.echo st.pty with
    | (.ok _, e, p) => ({ st with echo := e, pty := p }, none)
    | (.error err, e, p) =>
      if err.rawOsError = some 5 then ({ st with echo := e, pty := p }, some .ProcessDied)
      else ({ st with echo := e, pty := p }, some (.IoError err))
  | 1 =>
    match forward_inputs st.echo st.pty with
    | (.ok _, e, p) => ({ st with echo := e, pty := p }, none)
    | (.error err, e, p) =>
      if err.rawOsError = some 5 then ({ st with echo := e, pty := p }, some .ProcessDied)
      else ({ st with echo := e, pty := p }, some (.IoError err))
  | 2 =>
    match drainSignals st.hostSize st.pendingSignals st.ptySize with
    | (sz, r, rem) => ({ st with ptySize := sz, pendingSignals := rem }, r)
  | _ => (st, none)

/-- Dispatch of the events of one wait cycle (`for event in &events` with
`process_event(..)?`): the first failing dispatch stops the cycle. -/
def processEvents : List Nat → SysState → SysState × Option ProcessEventError
  | [], st => (st, none)
  | t :: ts, st =>
    match processEvent t st with
    | (st', none) => processEvents ts st'
    | (st', some e) => (st', some e)

/-- Outcome of one `poll.poll(&mut events, None)` call: a list of ready event
tokens, or a poll failure. -/
inductive PollOutcome where
  | ready : List Nat → PollOutcome
  | pollErr : IoErr → PollOutcome
  deriving DecidableEq, Repr

/-- Result of running the event loop over a finite prefix of poll outcomes:
still running, exited with a `ProcessEventError` propagated by `?`, or
panicked in `err.expect("Error while polling")`. -/
inductive LoopResult where
  | running : SysState → LoopResult
  | exited : ProcessEventError → SysState → LoopResult
  | panicked : IoErr → SysState → LoopResult
  deriving DecidableEq, Repr

/-- Model of the `main` event loop (crates/terminal/src/main.rs): each
iteration polls; a poll error of kind `Interrupted` is swallowed (`events` was
cleared by the failed poll, so nothing is dispatched that cycle); any other
poll error panics via `expect`; on success every ready event is dispatched and
a dispatch error exits the loop through `?`. -/
def runLoop : List PollOutcome → SysState → LoopResult
  | [], st => .running st
  | p :: ps, st =>
    match p with
    | .pollErr e =>
      if e.kind = .interrupted then runLoop ps st
      else .panicked e st
    | .ready toks =>
      match processEvents toks st with
      | (st', none) => runLoop ps st'
      | (st', some err) => .exited err st'

/-- Error the loop terminated with, if it exited via `?`-propagation. -/
def LoopResult.exitError : LoopResult → Option ProcessEventError
  | .running _ => none
  | .exited e _ => some e
  | .panicked _ _ => none

/-- Read trace in which every read returns a data chunk. -/
def chunkTrace (cs : List (List Nat)) : List ReadOutcome :=
  cs.map .chunk

/-!
Raw-mode guard (`StdinRaw`, src/stdfiles.rs, duplicated in
crates/terminal-echo/src/lib.rs).

The host stdin descriptor state is its terminal attribute snapshot (an opaque
bit pattern, modelled as `Nat`) and its fcntl status flag word.  `cfmakeraw`
is an arbitrary libc transformation of the attributes, passed as a parameter.
`OFlag::from_bits_truncate` keeps only the flag bits nix knows
(`known` mask); the kernel honours only the settable status-flag bits of an
`F_SETFL` (`settable` mask) and leaves the rest of the word unchanged.
-/

/-- Descriptor state of the guarded stdin: terminal attributes and fcntl
status flags. -/
structure FdState where
  attrs : Nat
  flags : Nat
  deriving DecidableEq, Repr

/-- The saved snapshot owned by a `StdinRaw` guard: the original `Termios`
and the original (truncated) `OFlag` set. -/
structure StdinRawG where
  termios : Nat
  fcntlFlags : Nat
  deriving DecidableEq, Repr

/-- Clears in `x` the bits of mask `m` (`x & !m`). -/
def clearBits (x m : Nat) : Nat :=
  x ^^^ (x &&& m)

/-- Kernel semantics of `fcntl(fd, F_SETFL(v))`: the settable status-flag
bits are taken from `v`, every other bit of the flag word is unchanged. -/
def setfl (settable : Nat) (fd : FdState) (v : Nat) : FdState :=
  { fd with flags := (v &&& settable) ||| clearBits fd.flags settable }

/-- Model of `StdinRaw::new` (src/stdfiles.rs lines 29-50): `tcgetattr`
(capture attributes), `F_GETFL` through `OFlag::from_bits_truncate` (capture
flags, truncated to the `known` mask), `cfmakeraw` + `tcsetattr(TCSANOW)`,
then `F_SETFL(saved_flags | O_NONBLOCK)`.  Returns the guard and the
descriptor state after acquisition. -/
def stdinRawNew (mkraw : Nat → Nat) (known settable nonblock : Nat)
    (fd : FdState) : StdinRawG × FdState :=
  let termios := fd.attrs
  let fcntlFlags := fd.flags &&& known
  let fd1 : FdState := { fd with attrs := mkraw termios }
  let fd2 := setfl settable fd1 (fcntlFlags ||| nonblock)
  (⟨termios, fcntlFlags⟩, fd2)

/-- Model of `Drop for StdinRaw` (src/stdfiles.rs lines 62-68):
`tcsetattr(TCSANOW, saved_termios)` then `F_SETFL(saved_flags)`. -/
def stdinRawDrop (settable : Nat) (g : StdinRawG) (fd : FdState) : FdState :=
  let fd1 : FdState := { fd with attrs := g.termios }
  setfl settable fd1 g.fcntlFlags

/-!
PTY destruction (`impl Drop for Pty`, crates/terminal-tty/src/pty.rs
lines 98-103).
-/

/-- Target of a `kill`: `kill(pid, sig)` with a positive pid signals that one
process; `kill(-pgid, sig)` signals a whole process group. -/
inductive SigTarget where
  | process : Nat → SigTarget
  | group : Nat → SigTarget
  deriving DecidableEq, Repr

/-- One action of the `Pty` destructor. -/
inductive DropAction where
  | kill : SigTarget → Nat → DropAction
  | wait : Nat → DropAction
  deriving DecidableEq, Repr

/-- Whether the action signals a whole process group. -/
def DropAction.isGroupKill : DropAction → Bool
  | .kill (.group _) _ => true
  | _ => false

/-- Model of `Drop for Pty`:
`kill(Pid::from_raw(self.child.id() as _), SIGHUP)` — a positive pid, so the
child process itself, not its process group — followed by `self.child.wait()`
with the status discarded. -/
def ptyDrop (childId : Nat) : List DropAction :=
  [.kill (.process childId) sigHUP, .wait childId]

/-- Child process as the parent sees it: pid and whether its exit status has
been collected. -/
structure ChildProc where
  pid : Nat
  reaped : Bool
  deriving DecidableEq, Repr

/-- Effect of one destructor action on the child: `wait` on its pid reaps it
(no zombie remains); a signal does not by itself reap. -/
def applyDropAction (p : ChildProc) (a : DropAction) : ChildProc :=
  match a with
  | .wait pid => if pid = p.pid then { p with reaped := true } else p
  | .kill _ _ => p

/-!
Child prelude (`pre_exec` closure inside `Pty::new`,
crates/terminal-tty/src/pty.rs lines 50-70).
-/

/-- The six signals whose dispositions the prelude resets to `SIG_DFL`. -/
def resetSigs : List Nat :=
  [sigCHLD, sigHUP, sigINT, sigQUIT, sigTERM, sigALRM]

/-- State of the forked child before `exec`: whether it leads its own
session, its open descriptor numbers, and the signals whose disposition is
currently not the default action. -/
structure ChildState where
  sessionLeader : Bool
  openFds : List Nat
  nonDefaultSigs : List Nat
  deriving DecidableEq, Repr

/-- Model of the `pre_exec` closure: `setsid()` (abort with an error if it
fails, before anything else happens); `close(slave)`; `close(master)`; then
`signal(sig, SIG_DFL)` for SIGCHLD, SIGHUP, SIGINT, SIGQUIT, SIGTERM and
SIGALRM.  An error return aborts the spawn before the program image loads. -/
def preExec (master slave : Nat) (setsidOk : Bool) (st : ChildState) :
    Except String ChildState :=
  if setsidOk then
    let st1 : ChildState := { st with sessionLeader := true }
    let st2 : ChildState := { st1 with openFds := st1.openFds.filter (fun f => f ≠ slave) }
    let st3 : ChildState := { st2 with openFds := st2.openFds.filter (fun f => f ≠ master) }
    let st4 : ChildState :=
      { st3 with nonDefaultSigs := st3.nonDefaultSigs.filter (fun g => g ∉ resetSigs) }
    .ok st4
  else .error "Failed to set session id"

/-!
Spawn failure path of `Pty::new` (crates/terminal-tty/src/pty.rs
lines 75-95).
-/

/-- Descriptors open in the parent process. -/
structure ParentState where
  openFds : List Nat
  deriving DecidableEq, Repr

/-- The error message built on spawn failure:
`format!("Failed to spawn command '{}': {}", program, err)`. -/
def spawnErrMsg (prog osErr : String) : String :=
  "Failed to spawn command \x27" ++ prog ++ "\x27: " ++ osErr

/-- Model of the `command.spawn()` match in `Pty::new`.  In both branches the
local `Command` is dropped when `Pty::new` returns, closing the three `Stdio`
handles that hold the `slave` descriptor.  On success the master is kept
(wrapped in the returned `Pty`'s `File`).  On failure the function returns the
formatted error; nothing in the failure branch closes `master`. -/
def ptyNewSpawn (master slave : Nat) (spawnOk : Bool) (osErr : String)
    (st : ParentState) : Except String Nat × ParentState :=
  let stAfter : ParentState := { st with openFds := st.openFds.filter (fun f => f ≠ slave) }
  if spawnOk then (.ok master, stAfter)
  else (.error (spawnErrMsg "/usr/bin/sh" osErr), stAfter)

/-!
`Write for Pty` (crates/terminal-tty/src/pty.rs lines 111-119).
-/

/-- Model of a `Pty` value: the child handle, the master descriptor endpoint,
and the signal subscription created for SIGCHLD. -/
structure PtyS where
  childId : Nat
  master : Chan
  signalsSub : List Nat
  deriving DecidableEq, Repr

/-- Model of `<Pty as Write>::write`: writes to the master descriptor. -/
def ptyWrite (p : PtyS) (bs : List Nat) : PtyS :=
  { p with master := writeAll p.master bs }

/-- Model of `<Pty as Write>::flush`: the body is `Ok(())`. -/
def ptyFlush (p : PtyS) : Except IoErr Unit × PtyS :=
  (.ok (), p)

/-!
Concrete sample values used by witnesses and counterexamples.
-/

/-- Sample geometry. -/
def ws0 : WinSize := ⟨24, 80, 0, 0⟩

/-- Sample geometry after a host resize. -/
def ws1 : WinSize := ⟨40, 120, 0, 0⟩

/-- A `WouldBlock` I/O error (EAGAIN, raw os error 11). -/
def wbErr : IoErr := ⟨.wouldBlock, some 11⟩

/-- The device-gone read error (EIO, raw os error 5). -/
def eioErr : IoErr := ⟨.other, some 5⟩

/-- Some other I/O error (raw os error 13). -/
def otherErr : IoErr := ⟨.other, some 13⟩

/-- Sample state: the pty master has one 2-byte chunk to deliver. -/
def stA : SysState := ⟨⟨[], []⟩, ⟨[.chunk [65, 66]], []⟩, [], ws0, ws0⟩

/-- Sample state: both stdin and the pty master would block on read. -/
def stB : SysState := ⟨⟨[.fail wbErr], []⟩, ⟨[.fail wbErr], []⟩, [], ws0, ws0⟩

/-- Sample state: both stdin and the pty master fail with the device-gone
error. -/
def stDied : SysState := ⟨⟨[.fail eioErr], []⟩, ⟨[.fail eioErr], []⟩, [], ws0, ws0⟩

/-- Sample state: both stdin and the pty master fail with a non-would-block,
non-device-gone error. -/
def stOther : SysState := ⟨⟨[.fail otherErr], []⟩, ⟨[.fail otherErr], []⟩, [], ws0, ws0⟩

/-- Sample state: a SIGUSR1 and then a SIGWINCH are pending, and the host
geometry differs from the pty geometry. -/
def stSig : SysState := ⟨⟨[], []⟩, ⟨[], []⟩, [sigUSR1, sigWINCH], ws1, ws0⟩

/-- C10: `<Pty as Write>::flush` always returns `Ok(())` and performs no
operation: the child handle, the master descriptor state (including any bytes
already written) and the signal subscription are left unchanged, so bytes
written to the pty are never explicitly flushed. -/
theorem c10_flush_noop (p : PtyS) (bs : List Nat) :
    ptyFlush p = (Except.ok (), p)
    ∧ (ptyFlush p).2.childId = p.childId
    ∧ (ptyFlush p).2.master = p.master
    ∧ (ptyFlush p).2.signalsSub = p.signalsSub
    ∧ ptyFlush (ptyWrite p bs) = (Except.ok (), ptyWrite p bs) :=
  ⟨rfl, rfl, rfl, rfl, rfl⟩

/-- C5 counterexample: at child id 7, the destructor's trace is a `kill` of
the child *process* (positive pid) followed by `wait`; no action in the trace
signals a process *group*, refuting the claim that destruction sends SIGHUP
to the child's process group. -/
theorem c5_counterexample :
    ptyDrop 7 = [.kill (.process 7) sigHUP, .wait 7]
    ∧ ((ptyDrop 7).all fun a => !a.isGroupKill) = true := by
  constructor
  · rfl
  · decide

/-- C5 amended: whenever a `Pty` value is destroyed, it first sends SIGHUP to
the child process (by its pid — not to the process group) and then
synchronously waits for the child, discarding the exit status; after the
destructor runs the child has been reaped, so no zombie remains. -/
theorem c5_drop_hup_then_reap (c : Nat) :
    ptyDrop c = [.kill (.process c) sigHUP, .wait c]
    ∧ (ptyDrop c).head? = some (.kill (.process c) sigHUP)
    ∧ ((ptyDrop c).foldl applyDropAction ⟨c, false⟩).reaped = true := by
  refine ⟨rfl, rfl, ?_⟩
  simp [ptyDrop, applyDropAction]

/-- C8: evaluation of the spawn-failure path at a concrete failing input
(master fd 3, slave fd 4, `/usr/bin/sh` missing with os error 2, both fds
open).  The returned error does name the attempted program and the underlying
OS error, and the slave is closed when the `Command` drops — but the master
descriptor (fd 3) is still open when the error propagates: the code leaks it,
contradicting the claim that no partial PTY state leaks. -/
theorem c8_spawn_fail_leaks_master :
    (ptyNewSpawn 3 4 false "No such file or directory (os error 2)" ⟨[3, 4]⟩).1
      = .error "Failed to spawn command \x27/usr/bin/sh\x27: No such file or directory (os error 2)"
    ∧ (ptyNewSpawn 3 4 false "No such file or directory (os error 2)" ⟨[3, 4]⟩).2.openFds
      = [3] := by
  constructor
  · rfl
  · rfl

/-- C2: acquiring the raw-mode guard (`StdinRaw::new`) and then releasing it
(`Drop`) restores the descriptor state bit-identically: the terminal
attributes are put back exactly, and the fcntl flag word is put back exactly,
provided every kernel-settable status-flag bit is among the bits
`OFlag::from_bits_truncate` preserves (`settable &&& known = settable`, which
holds for nix's `OFlag` on Linux).  `Drop` runs on every exit path of the
owning scope, including an error-triggered unwind. -/
theorem c2_raw_guard_restores (mkraw : Nat → Nat) (known settable nonblock : Nat)
    (fd : FdState) (h : settable &&& known = settable) :
    stdinRawDrop settable (stdinRawNew mkraw known settable nonblock fd).1
      (stdinRawNew mkraw known settable nonblock fd).2 = fd := by
  obtain ⟨a, fl⟩ := fd
  unfold stdinRawNew stdinRawDrop setfl clearBits
  simp only [FdState.mk.injEq]
  refine ⟨by trivial, ?_⟩
  apply Nat.eq_of_testBit_eq
  intro i
  have hb := congrArg (fun x => Nat.testBit x i) h
  simp only [Nat.testBit_land] at hb
  simp only [Nat.testBit_lor, Nat.testBit_land, Nat.testBit_xor]
  cases hk : Nat.testBit known i <;> cases hs : Nat.testBit settable i <;>
    cases hf : Nat.testBit fl i <;> cases hn : Nat.testBit nonblock i <;>
    simp_all

/-- C2 witness: the restoration theorem applied at a concrete descriptor
state (attrs 3, flags 6) with masks satisfying the hypothesis. -/
theorem c2_witness :
    ((5 : Nat) &&& 7 = 5)
    ∧ stdinRawDrop 5 (stdinRawNew (fun a => a + 1) 7 5 4 ⟨3, 6⟩).1
        (stdinRawNew (fun a => a + 1) 7 5 4 ⟨3, 6⟩).2 = ⟨3, 6⟩ :=
  ⟨by decide, c2_raw_guard_restores (fun a => a + 1) 7 5 4 ⟨3, 6⟩ (by decide)⟩

/-- Taking 256 bytes of each chunk changes nothing when every chunk already
fits the 256-byte buffer. -/
theorem take256_map_eq (l : List (List Nat)) (h : ∀ c ∈ l, c.length ≤ 256) :
    l.map (fun c => c.take 256) = l := by
  induction l with
  | nil => rfl
  | cons c cs ih =>
    simp only [List.map_cons]
    have hc : c.length ≤ 256 := h c (by simp)
    rw [List.take_of_length_le hc, ih fun d hd => h d (by simp [hd])]

/-- Over consecutive wait cycles each dispatching one token-0 readiness, the
bytes that reach host output are the pty's chunks, truncated to the buffer
size, concatenated in order. -/
theorem runLoop_gather_chunks (cs : List (List Nat)) :
    ∀ st : SysState, st.pty.toRead = chunkTrace cs →
    runLoop (List.replicate cs.length (.ready [0])) st =
      .running { st with
        echo := { st.echo with
          written := st.echo.written ++ (cs.map fun c => c.take 256).flatten },
        pty := { st.pty with toRead := [] } } := by
  induction cs with
  | nil =>
    intro st h
    obtain ⟨⟨eR, eW⟩, ⟨pR, pW⟩, sig, hsz, psz⟩ := st
    simp only [chunkTrace, List.map_nil] at h
    subst h
    simp [runLoop]
  | cons c cs ih =>
    intro st h
    obtain ⟨⟨eR, eW⟩, ⟨pR, pW⟩, sig, hsz, psz⟩ := st
    simp only [chunkTrace, List.map_cons] at h
    subst h
    have h2 := ih ⟨⟨eR, eW ++ c.take 256⟩, ⟨List.map ReadOutcome.chunk cs, pW⟩,
      sig, hsz, psz⟩ rfl
    simp only [List.length_cons, List.replicate_succ, runLoop, processEvents,
      processEvent, gather_outputs, readChunk, writeAll]
    rw [h2]
    simp [List.append_assoc]

/-- Over consecutive wait cycles each dispatching one token-1 readiness, the
bytes that reach the pty master are stdin's chunks, truncated to the buffer
size, concatenated in order. -/
theorem runLoop_forward_chunks (cs : List (List Nat)) :
    ∀ st : SysState, st.echo.toRead = chunkTrace cs →
    runLoop (List.replicate cs.length (.ready [1])) st =
      .running { st with
        echo := { st.echo with toRead := [] },
        pty := { st.pty with
          written := st.pty.written ++ (cs.map fun c => c.take 256).flatten } } := by
  induction cs with
  | nil =>
    intro st h
    obtain ⟨⟨eR, eW⟩, ⟨pR, pW⟩, sig, hsz, psz⟩ := st
    simp only [chunkTrace, List.map_nil] at h
    subst h
    simp [runLoop]
  | cons c cs ih =>
    intro st h
    obtain ⟨⟨eR, eW⟩, ⟨pR, pW⟩, sig, hsz, psz⟩ := st
    simp only [chunkTrace, List.map_cons] at h
    subst h
    have h2 := ih ⟨⟨List.map ReadOutcome.chunk cs, eW⟩, ⟨pR, pW ++ c.take 256⟩,
      sig, hsz, psz⟩ rfl
    simp only [List.length_cons, List.replicate_succ, runLoop, processEvents,
      processEvent, forward_inputs, readChunk, writeAll]
    rw [h2]
    simp [List.append_assoc]

/-- C1: a token-0 dispatch whose read yields a chunk moves at most 256 bytes
and writes to host output exactly the bytes it read, in order; symmetrically
a token-1 dispatch writes to the pty master exactly the bytes it read from
host input; and over multiple wait cycles the chunks are concatenated in
order on the opposite side — never reordered or corrupted. -/
theorem c1_forwarding_exact (st : SysState) (bs : List Nat) (rest : List ReadOutcome) :
    (st.pty.toRead = .chunk bs :: rest →
      processEvent 0 st =
        ({ st with echo := writeAll st.echo (bs.take 256),
                   pty := { st.pty with toRead := rest } }, none)
      ∧ (bs.take 256).length ≤ 256)
    ∧ (st.echo.toRead = .chunk bs :: rest →
      processEvent 1 st =
        ({ st with echo := { st.echo with toRead := rest },
                   pty := writeAll st.pty (bs.take 256) }, none)
      ∧ (bs.take 256).length ≤ 256)
    ∧ (∀ cs : List (List Nat), st.pty.toRead = chunkTrace cs →
        (∀ c ∈ cs, c.length ≤ 256) →
        runLoop (List.replicate cs.length (.ready [0])) st =
          .running { st with
            echo := { st.echo with written := st.echo.written ++ cs.flatten },
            pty := { st.pty with toRead := [] } })
    ∧ (∀ cs : List (List Nat), st.echo.toRead = chunkTrace cs →
        (∀ c ∈ cs, c.length ≤ 256) →
        runLoop (List.replicate cs.length (.ready [1])) st =
          .running { st with
            echo := { st.echo with toRead := [] },
            pty := { st.pty with written := st.pty.written ++ cs.flatten } }) := by
  refine ⟨?_, ?_, ?_, ?_⟩
  · intro h
    obtain ⟨⟨eR, eW⟩, ⟨pR, pW⟩, sig, hsz, psz⟩ := st
    simp only at h
    subst h
    constructor
    · simp [processEvent, gather_outputs, readChunk, writeAll]
    · simp [List.length_take]
  · intro h
    obtain ⟨⟨eR, eW⟩, ⟨pR, pW⟩, sig, hsz, psz⟩ := st
    simp only at h
    subst h
    constructor
    · simp [processEvent, forward_inputs, readChunk, writeAll]
    · simp [List.length_take]
  · intro cs h hlen
    have := runLoop_gather_chunks cs st h
    rwa [take256_map_eq cs hlen] at this
  · intro cs h hlen
    have := runLoop_forward_chunks cs st h
    rwa [take256_map_eq cs hlen] at this

/-- C1 witness: the exact-forwarding theorem applied at the sample state whose
pty has the chunk `[65, 66]` pending; the two bytes appear verbatim on host
output within one dispatch. -/
theorem c1_witness :
    processEvent 0 stA =
      ({ stA with echo := writeAll stA.echo ([65, 66].take 256),
                  pty := { stA.pty with toRead := [] } }, none)
    ∧ ([65, 66].take 256).length ≤ 256 :=
  (c1_forwarding_exact stA [65, 66] []).1 rfl

/-- C3 counterexample: at the concrete state whose host-input (stdin) read
would block, the token-1 dispatch surfaces the would-block as an `IoError`
to the event loop — `forward_inputs` propagates the read error with `?`
instead of absorbing it — and the loop terminates with that error, refuting
the claim that a would-block never surfaces on the host-input token. -/
theorem c3_counterexample :
    (processEvent 1 stB).2 = some (.IoError wbErr)
    ∧ (runLoop [.ready [1]] stB).exitError = some (.IoError wbErr) := by
  exact ⟨rfl, rfl⟩

/-- C3 amended: a would-block read is treated as zero bytes moved only on the
pty token (token 0, `gather_outputs` maps it to `Ok(0)`); on the host-input
token (token 1, `forward_inputs`) the would-block error propagates and
surfaces to the event loop as `IoError`. -/
theorem c3_wouldblock_asymmetric (st : SysState) (e : IoErr) (rest : List ReadOutcome) :
    (st.pty.toRead = .fail e :: rest → e.kind = .wouldBlock →
      processEvent 0 st = ({ st with pty := { st.pty with toRead := rest } }, none))
    ∧ (st.echo.toRead = .fail e :: rest → e.kind = .wouldBlock → e.rawOsError ≠ some 5 →
      processEvent 1 st =
        ({ st with echo := { st.echo with toRead := rest } }, some (.IoError e))) := by
  constructor
  · intro h he
    obtain ⟨⟨eR, eW⟩, ⟨pR, pW⟩, sig, hsz, psz⟩ := st
    simp only at h
    subst h
    simp [processEvent, gather_outputs, readChunk, he]
  · intro h he h5
    obtain ⟨⟨eR, eW⟩, ⟨pR, pW⟩, sig, hsz, psz⟩ := st
    simp only at h
    subst h
    simp [processEvent, forward_inputs, readChunk, h5]

/-- C3 witness: the amended theorem applied at the sample state where both
stdin and the pty would block: token 0 absorbs it, token 1 surfaces it. -/
theorem c3_witness :
    processEvent 0 stB = ({ stB with pty := { stB.pty with toRead := [] } }, none)
    ∧ processEvent 1 stB =
        ({ stB with echo := { stB.echo with toRead := [] } }, some (.IoError wbErr)) :=
  ⟨(c3_wouldblock_asymmetric stB wbErr []).1 rfl rfl,
   (c3_wouldblock_asymmetric stB wbErr []).2 rfl rfl (by decide)⟩

/-- C4: a forwarding failure on token 0 (and equally token 1) whose raw OS
error is 5 makes `process_event` return `ProcessDied` and the loop terminate
with it; any other non-would-block failure is returned as `IoError` carrying
the error — a constructor distinct from `ProcessDied`. -/
theorem c4_device_gone_classification (st : SysState) (e : IoErr)
    (rest : List ReadOutcome) (ps : List PollOutcome) :
    (st.pty.toRead = .fail e :: rest → e.kind ≠ .wouldBlock →
      (e.rawOsError = some 5 →
        (processEvent 0 st).2 = some .ProcessDied
        ∧ (runLoop (.ready [0] :: ps) st).exitError = some .ProcessDied)
      ∧ (e.rawOsError ≠ some 5 →
        (processEvent 0 st).2 = some (.IoError e)
        ∧ (runLoop (.ready [0] :: ps) st).exitError = some (.IoError e)))
    ∧ (st.echo.toRead = .fail e :: rest →
      (e.rawOsError = some 5 →
        (processEvent 1 st).2 = some .ProcessDied
        ∧ (runLoop (.ready [1] :: ps) st).exitError = some .ProcessDied)
      ∧ (e.rawOsError ≠ some 5 →
        (processEvent 1 st).2 = some (.IoError e)
        ∧ (runLoop (.ready [1] :: ps) st).exitError = some (.IoError e)))
    ∧ (∀ e2 : IoErr, ProcessEventError.IoError e2 ≠ .ProcessDied) := by
  refine ⟨?_, ?_, fun e2 h => ProcessEventError.noConfusion h⟩
  · intro h hk
    obtain ⟨⟨eR, eW⟩, ⟨pR, pW⟩, sig, hsz, psz⟩ := st
    simp only at h
    subst h
    constructor
    · intro h5
      constructor
      · simp [processEvent, gather_outputs, readChunk, hk, h5]
      · simp [runLoop, processEvents, processEvent, gather_outputs, readChunk,
          hk, h5, LoopResult.exitError]
    · intro h5
      constructor
      · simp [processEvent, gather_outputs, readChunk, hk, h5]
      · simp [runLoop, processEvents, processEvent, gather_outputs, readChunk,
          hk, h5, LoopResult.exitError]
  · intro h
    obtain ⟨⟨eR, eW⟩, ⟨pR, pW⟩, sig, hsz, psz⟩ := st
    simp only at h
    subst h
    constructor
    · intro h5
      constructor
      · simp [processEvent, forward_inputs, readChunk, h5]
      · simp [runLoop, processEvents, processEvent, forward_inputs, readChunk,
          h5, LoopResult.exitError]
    · intro h5
      constructor
      · simp [processEvent, forward_inputs, readChunk, h5]
      · simp [runLoop, processEvents, processEvent, forward_inputs, readChunk,
          h5, LoopResult.exitError]

/-- C4 witness: the classification theorem applied at the sample states whose
next read fails with the device-gone error (raw os 5) and with a different
error (raw os 13). -/
theorem c4_witness :
    (processEvent 0 stDied).2 = some .ProcessDied
    ∧ (runLoop [.ready [0]] stDied).exitError = some .ProcessDied
    ∧ (processEvent 1 stDied).2 = some .ProcessDied
    ∧ (processEvent 0 stOther).2 = some (.IoError otherErr)
    ∧ ProcessEventError.IoError otherErr ≠ .ProcessDied :=
  ⟨(((c4_device_gone_classification stDied eioErr [] []).1 rfl (by decide)).1 (by decide)).1,
   (((c4_device_gone_classification stDied eioErr [] []).1 rfl (by decide)).1 (by decide)).2,
   (((c4_device_gone_classification stDied eioErr [] []).2.1 rfl).1 (by decide)).1,
   (((c4_device_gone_classification stOther otherErr [] []).1 rfl (by decide)).2 (by decide)).1,
   (c4_device_gone_classification stOther otherErr [] []).2.2 otherErr⟩

/-- Draining a pending-signal list that holds no SIGUSR1 consumes everything:
the pty geometry ends at the host geometry exactly when a SIGWINCH was
pending, no error is raised, and nothing stays pending. -/
theorem drain_no_usr1 (host : WinSize) :
    ∀ (l : List Nat) (old : WinSize), sigUSR1 ∉ l →
    drainSignals host l old = ((if sigWINCH ∈ l then host else old), none, []) := by
  intro l
  induction l with
  | nil => intro old h; simp [drainSignals]
  | cons s rest ih =>
    intro old h
    simp only [List.mem_cons, not_or] at h
    obtain ⟨hs, hrest⟩ := h
    have hs' : s ≠ sigUSR1 := fun hh => hs hh.symm
    by_cases hw : s = sigWINCH
    · subst hw
      have hstep : drainSignals host (sigWINCH :: rest) old = drainSignals host rest host := by
        simp [drainSignals, hs']
      rw [hstep, ih _ hrest]
      simp
    · have hstep : drainSignals host (s :: rest) old = drainSignals host rest old := by
        simp [drainSignals, hs', hw]
      have hw2 : ¬(sigWINCH = s) := fun hh => hw hh.symm
      rw [hstep, ih _ hrest]
      simp [List.mem_cons, hw2]

/-- Draining a pending-signal list whose first SIGUSR1 sits after the prefix
`pre` processes only `pre`: each SIGWINCH in `pre` resizes the pty to the
host geometry, the SIGUSR1 stops the drain with `SigBreak`, and the signals
after it stay pending. -/
theorem drain_until_usr1 (host : WinSize) :
    ∀ (pre post : List Nat) (old : WinSize), sigUSR1 ∉ pre →
    drainSignals host (pre ++ sigUSR1 :: post) old =
      ((if sigWINCH ∈ pre then host else old), some .SigBreak, post) := by
  intro pre
  induction pre with
  | nil => intro post old h; simp [drainSignals]
  | cons s rest ih =>
    intro post old h
    simp only [List.mem_cons, not_or] at h
    obtain ⟨hs, hrest⟩ := h
    have hs' : s ≠ sigUSR1 := fun hh => hs hh.symm
    by_cases hw : s = sigWINCH
    · subst hw
      have hstep : drainSignals host ((sigWINCH :: rest) ++ sigUSR1 :: post) old
          = drainSignals host (rest ++ sigUSR1 :: post) host := by
        simp [drainSignals, hs']
      rw [hstep, ih post host hrest]
      simp
    · have hstep : drainSignals host ((s :: rest) ++ sigUSR1 :: post) old
          = drainSignals host (rest ++ sigUSR1 :: post) old := by
        simp [drainSignals, hs', hw]
      have hw2 : ¬(sigWINCH = s) := fun hh => hw hh.symm
      rw [hstep, ih post old hrest]
      simp [List.mem_cons, hw2]

/-- C6 counterexample: with SIGUSR1 and SIGWINCH both pending (in that drain
order) and host geometry `ws1` differing from pty geometry `ws0`, the token-2
dispatch returns `SigBreak` while the SIGWINCH is left pending and no resize
is performed — refuting the claim that every pending signal is drained and
every drained SIGWINCH triggers a resize. -/
theorem c6_counterexample :
    (processEvent 2 stSig).2 = some .SigBreak
    ∧ (processEvent 2 stSig).1.pendingSignals = [sigWINCH]
    ∧ (processEvent 2 stSig).1.ptySize = ws0
    ∧ ws0 ≠ ws1 := by
  refine ⟨rfl, rfl, rfl, by decide⟩

/-- C6 amended: the token-2 dispatch drains pending signals in order only up
to the first SIGUSR1: every SIGWINCH drained before it triggers `get_size` on
host output followed by `set_size` on the pty with that geometry, the SIGUSR1
terminates the drain and the loop gracefully (`SigBreak`, no I/O error) with
the later signals left pending; when no SIGUSR1 is pending, all pending
signals are drained. -/
theorem c6_signal_drain (host old : WinSize) (pre post l : List Nat) :
    (sigUSR1 ∉ pre →
      drainSignals host (pre ++ sigUSR1 :: post) old =
        ((if sigWINCH ∈ pre then host else old), some .SigBreak, post))
    ∧ (sigUSR1 ∉ l →
      drainSignals host l old = ((if sigWINCH ∈ l then host else old), none, []))
    ∧ (∀ st : SysState,
        processEvent 2 st =
          ({ st with
              ptySize := (drainSignals st.hostSize st.pendingSignals st.ptySize).1,
              pendingSignals := (drainSignals st.hostSize st.pendingSignals st.ptySize).2.2 },
            (drainSignals st.hostSize st.pendingSignals st.ptySize).2.1)) := by
  refine ⟨drain_until_usr1 host pre post old, drain_no_usr1 host l old, ?_⟩
  intro st
  simp only [processEvent]

/-- C6 witness: the drain characterization applied at concrete pending lists:
a SIGWINCH before the SIGUSR1 resizes and the signal after the SIGUSR1 stays
pending; without a SIGUSR1 everything is drained. -/
theorem c6_witness :
    drainSignals ws1 ([sigWINCH] ++ sigUSR1 :: [sigWINCH]) ws0
      = (ws1, some .SigBreak, [sigWINCH])
    ∧ drainSignals ws1 [sigWINCH, sigCHLD] ws0 = (ws1, none, []) :=
  ⟨(c6_signal_drain ws1 ws0 [sigWINCH] [sigWINCH] [sigWINCH, sigCHLD]).1 (by decide),
   (c6_signal_drain ws1 ws0 [sigWINCH] [sigWINCH] [sigWINCH, sigCHLD]).2.1 (by decide)⟩

/-- C7: the child prelude performs exactly: become session leader, close the
inherited subordinate and master descriptors (touching no other descriptor),
and reset the dispositions of SIGCHLD, SIGHUP, SIGINT, SIGQUIT, SIGTERM and
SIGALRM to the default action (touching no other signal); if session creation
fails, the prelude returns an error — aborting the spawn before the program
image loads — without performing any of the later steps. -/
theorem c7_child_prelude (master slave : Nat) (st : ChildState) :
    preExec master slave true st =
      .ok ⟨true, (st.openFds.filter (fun f => f ≠ slave)).filter (fun f => f ≠ master),
           st.nonDefaultSigs.filter (fun g => g ∉ resetSigs)⟩
    ∧ (∀ st', preExec master slave true st = .ok st' →
        st'.sessionLeader = true
        ∧ master ∉ st'.openFds
        ∧ slave ∉ st'.openFds
        ∧ (∀ f, f ∈ st.openFds → f ≠ master → f ≠ slave → f ∈ st'.openFds)
        ∧ (∀ g, g ∈ resetSigs → g ∉ st'.nonDefaultSigs)
        ∧ (∀ g, g ∈ st.nonDefaultSigs → g ∉ resetSigs → g ∈ st'.nonDefaultSigs))
    ∧ preExec master slave false st = .error "Failed to set session id" := by
  refine ⟨by simp [preExec], ?_, by simp [preExec]⟩
  intro st' h
  simp only [preExec, if_true, Except.ok.injEq] at h
  subst h
  refine ⟨rfl, ?_, ?_, ?_, ?_, ?_⟩
  · simp [List.mem_filter]
  · simp [List.mem_filter]
  · intro f hf hm hs
    simp [List.mem_filter, hf, hm, hs]
  · intro g hg
    simp [List.mem_filter]
    intro _
    simp [hg]
  · intro g hg hng
    simp [List.mem_filter, hg, hng]

/-- C7 witness: the prelude theorem applied in a child state with descriptors
5 (master), 6 (slave) and 7 open, and non-default dispositions for SIGCHLD
and signal 31: descriptor 7 survives, both pty descriptors are closed, the
SIGCHLD disposition is reset and signal 31 keeps its handler; with a failing
`setsid` the prelude errors out. -/
theorem c7_witness :
    preExec 5 6 true ⟨false, [5, 6, 7], [sigCHLD, 31]⟩ = .ok ⟨true, [7], [31]⟩
    ∧ (5 : Nat) ∉ (ChildState.mk true [7] [31]).openFds
    ∧ (7 : Nat) ∈ (ChildState.mk true [7] [31]).openFds
    ∧ sigCHLD ∉ (ChildState.mk true [7] [31]).nonDefaultSigs
    ∧ (31 : Nat) ∈ (ChildState.mk true [7] [31]).nonDefaultSigs
    ∧ preExec 5 6 false ⟨false, [5, 6, 7], [sigCHLD, 31]⟩
        = .error "Failed to set session id" :=
  ⟨(c7_child_prelude 5 6 ⟨false, [5, 6, 7], [sigCHLD, 31]⟩).1,
   ((c7_child_prelude 5 6 ⟨false, [5, 6, 7], [sigCHLD, 31]⟩).2.1 ⟨true, [7], [31]⟩
      (c7_child_prelude 5 6 ⟨false, [5, 6, 7], [sigCHLD, 31]⟩).1).2.1,
   ((c7_child_prelude 5 6 ⟨false, [5, 6, 7], [sigCHLD, 31]⟩).2.1 ⟨true, [7], [31]⟩
      (c7_child_prelude 5 6 ⟨false, [5, 6, 7], [sigCHLD, 31]⟩).1).2.2.2.1 7
      (by decide) (by decide) (by decide),
   ((c7_child_prelude 5 6 ⟨false, [5, 6, 7], [sigCHLD, 31]⟩).2.1 ⟨true, [7], [31]⟩
      (c7_child_prelude 5 6 ⟨false, [5, 6, 7], [sigCHLD, 31]⟩).1).2.2.2.2.1 sigCHLD
      (by decide),
   ((c7_child_prelude 5 6 ⟨false, [5, 6, 7], [sigCHLD, 31]⟩).2.1 ⟨true, [7], [31]⟩
      (c7_child_prelude 5 6 ⟨false, [5, 6, 7], [sigCHLD, 31]⟩).1).2.2.2.2.2 31
      (by decide) (by decide),
   (c7_child_prelude 5 6 ⟨false, [5, 6, 7], [sigCHLD, 31]⟩).2.2⟩

/-- C9: a poll failure of the interrupted (EINTR) kind is retried
transparently — the loop state is exactly what it was, no error surfaces;
the loop exits through `?` only with `ProcessDied`, `SigBreak` or an
`IoError`; and it panics on a poll failure only when that failure is not of
the interrupted kind. -/
theorem c9_loop_exit_reasons :
    (∀ (e : IoErr) (ps : List PollOutcome) (st : SysState), e.kind = .interrupted →
        runLoop (.pollErr e :: ps) st = runLoop ps st)
    ∧ (∀ (ps : List PollOutcome) (st : SysState) (e : ProcessEventError) (st' : SysState),
        runLoop ps st = .exited e st' →
        e = .ProcessDied ∨ e = .SigBreak ∨ ∃ er : IoErr, e = .IoError er)
    ∧ (∀ (ps : List PollOutcome) (st : SysState) (e : IoErr) (st' : SysState),
        runLoop ps st = .panicked e st' → e.kind ≠ .interrupted) := by
  refine ⟨?_, ?_, ?_⟩
  · intro e ps st h
    simp [runLoop, h]
  · intro ps st e st' _
    cases e with
    | ProcessDied => exact Or.inl rfl
    | IoError er => exact Or.inr (Or.inr ⟨er, rfl⟩)
    | SigBreak => exact Or.inr (Or.inl rfl)
  · intro ps
    induction ps with
    | nil =>
      intro st e st' h
      simp [runLoop] at h
    | cons p ps ih =>
      intro st e st' h
      cases p with
      | pollErr pe =>
        by_cases hk : pe.kind = .interrupted
        · simp only [runLoop, hk, if_true] at h
          exact ih _ _ _ h
        · simp only [runLoop, hk, if_false] at h
          rw [LoopResult.panicked.injEq] at h
          rw [← h.1]
          exact hk
      | ready toks =>
        rcases hpe : processEvents toks st with ⟨st1, r⟩
        cases r with
        | none =>
          have hstep : runLoop (.ready toks :: ps) st = runLoop ps st1 := by
            simp [runLoop, hpe]
          rw [hstep] at h
          exact ih _ _ _ h
        | some err =>
          have hstep : runLoop (.ready toks :: ps) st = .exited err st1 := by
            simp [runLoop, hpe]
          rw [hstep] at h
          exact LoopResult.noConfusion h

/-- C9 witness: the loop theorem applied at concrete runs: an interrupted
poll is a transparent retry; a run exiting with `SigBreak` has an admissible
exit reason; a panicking run was caused by a non-interrupted poll error. -/
theorem c9_witness :
    runLoop [.pollErr ⟨.interrupted, some 4⟩] stA = runLoop [] stA
    ∧ (ProcessEventError.SigBreak = .ProcessDied ∨ ProcessEventError.SigBreak = .SigBreak
        ∨ ∃ er : IoErr, ProcessEventError.SigBreak = .IoError er)
    ∧ IoErr.kind ⟨.other, some 13⟩ ≠ .interrupted :=
  ⟨c9_loop_exit_reasons.1 ⟨.interrupted, some 4⟩ [] stA rfl,
   c9_loop_exit_reasons.2.1 [.ready [2]] stSig .SigBreak
     ⟨⟨[], []⟩, ⟨[], []⟩, [sigWINCH], ws1, ws0⟩ rfl,
   c9_loop_exit_reasons.2.2 [.pollErr ⟨.other, some 13⟩] stA ⟨.other, some 13⟩ stA rfl⟩
